import Mathlib

/-!
# Verification of the hookform-action submission core

Shallow embedding of the core of the `hookform-action` repository:
the default error mapper and action-arity classifier
(`packages/core/src/types.ts`), the SSR-safe sessionStorage persistence
helpers and debounce utility (`persist.ts`), and the submission
lifecycle controller (modelled from the specification, since only its
types and tests ship in the sources at hand).
-/

namespace HookformAction

/-! ## JavaScript value model

Enough of the JavaScript dynamic value universe to express the checks
performed by `defaultErrorMapper`: truthiness, `typeof`, and property
lookup on plain objects. -/

/-- A JavaScript runtime value: `null`, `undefined`, booleans, numbers,
strings, plain objects (assoc list of own properties) and arrays. -/
inductive JSValue where
  | null
  | undef
  | bool (b : Bool)
  | num (n : Int)
  | str (s : String)
  | obj (fields : List (String × JSValue))
  | arr (elems : List JSValue)

/-- JavaScript `typeof` operator (note `typeof null === "object"`). -/
def JSValue.typeOf : JSValue → String
  | .null => "object"
  | .undef => "undefined"
  | .bool _ => "boolean"
  | .num _ => "number"
  | .str _ => "string"
  | .obj _ => "object"
  | .arr _ => "object"

/-- JavaScript truthiness of a value. -/
def JSValue.truthy : JSValue → Bool
  | .null => false
  | .undef => false
  | .bool b => b
  | .num n => n != 0
  | .str s => s != ""
  | .obj _ => true
  | .arr _ => true

/-- First binding for a key in an object's own-property list. -/
def lookupField : List (String × JSValue) → String → Option JSValue
  | [], _ => none
  | (k, v) :: rest, key => if k == key then some v else lookupField rest key

/-- Property access `v[key]`; `none` when the property is absent
(`key in v` is false).  Arrays carry only index properties, so a string
key such as `"errors"` is never present on them in this model. -/
def JSValue.getProp : JSValue → String → Option JSValue
  | .obj fields, key => lookupField fields key
  | _, _ => none

/-! ## `defaultErrorMapper` — packages/core/src/types.ts lines 106–117

```ts
export function defaultErrorMapper<TResult>(result: TResult): FieldErrorRecord | null | undefined {
  if (
    result &&
    typeof result === 'object' &&
    'errors' in result &&
    result.errors &&
    typeof result.errors === 'object'
  ) {
    return result.errors as FieldErrorRecord
  }
  return null
}
```
`some e` models returning the record `e`; `none` models returning `null`. -/

/-- Transliteration of `defaultErrorMapper` from `types.ts`. -/
def defaultErrorMapper (result : JSValue) : Option JSValue :=
  if result.truthy && (result.typeOf == "object") then
    match result.getProp "errors" with
    | some e => if e.truthy && (e.typeOf == "object") then some e else none
    | none => none
  else none

/-- The spec's wording for the default error mapper: the result is a
non-null value of object type carrying an `errors` property whose value
is itself truthy and of object type; then that property is returned by
reference, otherwise `null`. -/
def defaultErrorMapperSpec (result : JSValue) : Option JSValue :=
  if result.typeOf == "object" && !(match result with | .null => true | _ => false) then
    match result.getProp "errors" with
    | some e => if e.truthy && (e.typeOf == "object") then some e else none
    | none => none
  else none

/-! ## `isFormDataAction` — packages/core/src/types.ts lines 96–100

A server action is a function value; the classifier only inspects its
declared parameter count (`Function.length`). -/

/-- A user-supplied server action as the classifier sees it: its
declared parameter count. -/
structure ServerAction where
  length : Nat

/-- Transliteration of `isFormDataAction` from `types.ts`:
`action.length >= 2`. -/
def isFormDataAction (action : ServerAction) : Bool :=
  action.length ≥ 2

/-- The two calling conventions the controller can use when invoking a
server action. -/
inductive Convention where
  | structured
  | formEncoded
deriving DecidableEq

/-- Modelled from the spec: the submission controller's calling-convention
dispatch (`use-action-form.ts` is not among the sources at hand; the spec
says the arity of the supplied function, read through `isFormDataAction`,
selects the convention). -/
def selectConvention (action : ServerAction) : Convention :=
  if isFormDataAction action then .formEncoded else .structured

/-! ## Persistence helpers — persist.ts

The storage medium (`window.sessionStorage`) is a collaborator; it is
modelled as an association list plus fault flags saying whether each
primitive (`getItem`/`setItem`/`removeItem`) throws.  `available = false`
models a non-browser context (`typeof window === 'undefined'`).
Throwing is modelled with `Except Unit`; the helpers' `try`/`catch`
blocks turn every outcome into a total result. -/

/-- The session storage medium: availability, stored entries, and fault
flags for each primitive operation. -/
structure StorageState where
  available : Bool
  items : List (String × String)
  getThrows : Bool
  setThrows : Bool
  removeThrows : Bool
deriving DecidableEq

/-- `isClient` from persist.ts: `typeof window !== 'undefined' &&
typeof window.sessionStorage !== 'undefined'`. -/
def isClient (s : StorageState) : Bool :=
  s.available

/-- `window.sessionStorage.getItem(key)`: throws when faulted, else the
stored string (or `null`). -/
def sessionGetItem (s : StorageState) (key : String) : Except Unit (Option String) :=
  if s.getThrows then .error () else .ok (s.items.lookup key)

/-- `window.sessionStorage.setItem(key, v)`: throws when faulted (quota
exceeded, disabled storage), else stores the binding. -/
def sessionSetItem (s : StorageState) (key v : String) : Except Unit StorageState :=
  if s.setThrows then .error ()
  else .ok { s with items := (key, v) :: s.items.filter (fun p => p.1 != key) }

/-- `window.sessionStorage.removeItem(key)`: throws when faulted, else
drops the binding. -/
def sessionRemoveItem (s : StorageState) (key : String) : Except Unit StorageState :=
  if s.removeThrows then .error ()
  else .ok { s with items := s.items.filter (fun p => p.1 != key) }

/-- The platform JSON codec (`JSON.parse` / `JSON.stringify`), an
external collaborator: `parse` may fail on malformed input. -/
structure JsonCodec where
  parse : String → Except Unit JSValue
  stringify : JSValue → String

/-- Transliteration of `loadPersistedValues` from persist.ts: `null` off
the client; inside `try`, `getItem`, the falsy-`raw` guard (absent key or
empty string), then `JSON.parse`; any throw is caught and yields `null`. -/
def loadPersistedValues (codec : JsonCodec) (s : StorageState) (key : String) :
    Option JSValue :=
  if !(isClient s) then none
  else
    match sessionGetItem s key with
    | .error _ => none
    | .ok none => none
    | .ok (some raw) =>
      if raw == "" then none
      else
        match codec.parse raw with
        | .error _ => none
        | .ok v => some v

/-- Transliteration of `savePersistedValues` from persist.ts: no-op off
the client; `setItem(key, JSON.stringify(values))` inside `try`, with a
throw leaving the medium untouched. -/
def savePersistedValues (codec : JsonCodec) (s : StorageState) (key : String)
    (values : JSValue) : StorageState :=
  if !(isClient s) then s
  else
    match sessionSetItem s key (codec.stringify values) with
    | .error _ => s
    | .ok s2 => s2

/-- Transliteration of `clearPersistedValues` from persist.ts: no-op off
the client; `removeItem(key)` inside `try`, with a throw leaving the
medium untouched. -/
def clearPersistedValues (s : StorageState) (key : String) : StorageState :=
  if !(isClient s) then s
  else
    match sessionRemoveItem s key with
    | .error _ => s
    | .ok s2 => s2

/-! ## Debounce utility — persist.ts

```ts
export function debounce(fn, delay) {
  let timer = null
  return (...args) => {
    if (timer) clearTimeout(timer)
    timer = setTimeout(() => { fn(...args); timer = null }, delay)
  }
}
```

A run is a list of call events `(time, args)` in chronological order.
The single mutable `timer` slot is the `pending` accumulator: each call
clears any still-pending timer and schedules a new one at
`time + delay`; a timer whose due time has been reached before the next
call fires first.  The result is the chronological list of `fn`
invocations `(fireTime, args)`. -/

/-- One pass over the remaining call events, carrying the pending timer
(due time and captured arguments). -/
def debounceRunAux {α : Type} (delay : Nat) (pending : Option (Nat × α)) :
    List (Nat × α) → List (Nat × α)
  | [] =>
    match pending with
    | some p => [p]
    | none => []
  | (t, a) :: rest =>
    match pending with
    | some (due, pa) =>
      if due ≤ t then (due, pa) :: debounceRunAux delay (some (t + delay, a)) rest
      else debounceRunAux delay (some (t + delay, a)) rest
    | none => debounceRunAux delay (some (t + delay, a)) rest

/-- The invocations `fn` receives when the debounced wrapper is called
at the given times with the given arguments. -/
def debounceRun {α : Type} (delay : Nat) (calls : List (Nat × α)) : List (Nat × α) :=
  debounceRunAux delay none calls

/-! ## Submission lifecycle controller

The controller implementation (`use-action-form-core.ts`) is not among
the sources at hand — only its option/state types (`core-types.ts`),
its tests, and the spec describe it.  The step function below is
therefore modelled from the spec's §4.3 state machine, over the
persistence helpers and error-mapper contract defined above. -/

/-- A field-error record: field name to ordered error messages. -/
abbrev FieldErrorRecord := List (String × List String)

/-- Outcome of invoking the user-supplied submit function: it resolves
with a result, or throws / rejects. -/
inductive SubmitOutcome (R : Type) where
  | resolves (r : R)
  | throws

/-- Modelled from the spec: the configuration of one submission
controller (`UseActionFormCoreOptions`) — optional client validation
adapter (explicit or auto-detected schema), the error mapper, the
user-supplied submit function, the optional optimistic reducer, and the
optional persistence key. -/
structure ControllerCfg (V R O : Type) where
  validate : Option (V → Option FieldErrorRecord)
  errorMapper : R → Option FieldErrorRecord
  action : V → SubmitOutcome R
  optimistic : Option (O → V → O)
  persistKey : Option String

/-- Modelled from the spec: the observable controller state —
`ActionFormState` fields, the optimistic reconciler's confirmed and
speculative values, the storage medium, and the submit-function call
count. -/
structure CtrlState (R O : Type) where
  isSubmitting : Bool
  isPending : Bool
  isSubmitSuccessful : Bool
  submitErrors : Option FieldErrorRecord
  actionResult : Option R
  confirmed : O
  optimisticData : O
  storage : StorageState
  submitCalls : Nat

/-- Terminal-state transition back to `Idle`: `isSubmitting`/`isPending`
drop to `false` as the final observable step. -/
def finishIdle {R O : Type} (st : CtrlState R O) : CtrlState R O :=
  { st with isSubmitting := false, isPending := false }

/-- Modelled from the spec: on `Submitting` entry, when an optimistic
key is configured the reconciler applies the speculative reducer to the
confirmed value and the submitted values. -/
def applySpeculative {V R O : Type} (cfg : ControllerCfg V R O)
    (st : CtrlState R O) (values : V) : CtrlState R O :=
  match cfg.optimistic with
  | some reducer => { st with optimisticData := reducer st.confirmed values }
  | none => st

/-- The optimistic reconciler's `rollback`: restore the last explicitly
confirmed value. -/
def rollbackOptimistic {R O : Type} (st : CtrlState R O) : CtrlState R O :=
  { st with optimisticData := st.confirmed }

/-- Modelled from the spec: on failure or throw the reconciler (when
configured) rolls the speculative value back to the confirmed one. -/
def autoRollback {V R O : Type} (cfg : ControllerCfg V R O)
    (st : CtrlState R O) : CtrlState R O :=
  match cfg.optimistic with
  | some _ => rollbackOptimistic st
  | none => st

/-- Modelled from the spec: on success the reconciler (when configured)
confirms the just-applied speculative value. -/
def confirmOptimistic {V R O : Type} (cfg : ControllerCfg V R O)
    (st : CtrlState R O) : CtrlState R O :=
  match cfg.optimistic with
  | some _ => { st with confirmed := st.optimisticData }
  | none => st

/-- Modelled from the spec: on success the persisted snapshot for the
configured key is cleared (via the source's `clearPersistedValues`). -/
def clearOnSuccess {V R O : Type} (cfg : ControllerCfg V R O)
    (st : CtrlState R O) : CtrlState R O :=
  match cfg.persistKey with
  | some key => { st with storage := clearPersistedValues st.storage key }
  | none => st

/-- Modelled from the spec: the `Submitting` phase — apply the
speculative value, invoke the submit function once, classify the
outcome (success / field error via the error mapper / throw), commit or
roll back, gate persistence, and return to `Idle`. -/
def runAction {V R O : Type} (cfg : ControllerCfg V R O)
    (st : CtrlState R O) (values : V) : CtrlState R O :=
  let st1 := applySpeculative cfg st values
  let st1 := { st1 with submitCalls := st1.submitCalls + 1 }
  match cfg.action values with
  | .throws =>
    finishIdle (autoRollback cfg
      { st1 with isSubmitSuccessful := false, submitErrors := none })
  | .resolves r =>
    match cfg.errorMapper r with
    | some errs =>
      finishIdle (autoRollback cfg
        { st1 with isSubmitSuccessful := false, submitErrors := some errs,
                   actionResult := some r })
    | none =>
      finishIdle (clearOnSuccess cfg (confirmOptimistic cfg
        { st1 with isSubmitSuccessful := true, submitErrors := none,
                   actionResult := some r }))

/-- Modelled from the spec: one full submission attempt
(`Idle → Validating → Submitting → terminal → Idle`).  When a client
schema is configured and rejects the values, the attempt aborts: the
error record is surfaced as `submitErrors`, the submit function is
never invoked, and `isSubmitSuccessful` is set false. -/
def submitStep {V R O : Type} (cfg : ControllerCfg V R O)
    (st : CtrlState R O) (values : V) : CtrlState R O :=
  let st0 := { st with isSubmitting := true, isPending := true }
  match cfg.validate with
  | some validate =>
    match validate values with
    | some errs =>
      finishIdle { st0 with submitErrors := some errs, isSubmitSuccessful := false }
    | none => runAction cfg st0 values
  | none => runAction cfg st0 values

/-- Client validation passes for the submitted values: no schema is
configured, or the configured adapter returns no error record. -/
def ValidationPasses {V R O : Type} (cfg : ControllerCfg V R O) (values : V) : Prop :=
  cfg.validate = none ∨ ∃ f, cfg.validate = some f ∧ f values = none

end HookformAction

namespace HookformAction

/-- Helper: processing a burst (each call strictly inside the window of
the previous one) with a timer pending from the head call fires exactly
once, at `delay` after the last call, with the last call's arguments. -/
theorem debounceRunAux_burst {α : Type} (delay : Nat) :
    ∀ (rest : List (Nat × α)) (t : Nat) (a : α),
      List.Chain' (fun p q => p.1 ≤ q.1 ∧ q.1 < p.1 + delay) ((t, a) :: rest) →
      debounceRunAux delay (some (t + delay, a)) rest =
        [((((t, a) :: rest).getLast (List.cons_ne_nil _ _)).1 + delay,
          (((t, a) :: rest).getLast (List.cons_ne_nil _ _)).2)]
  | [], t, a, _ => rfl
  | (t', a') :: rest', t, a, h => by
    rw [List.chain'_cons] at h
    obtain ⟨⟨hle, hlt⟩, hrest⟩ := h
    have hdue : ¬ (t + delay ≤ t') := by omega
    simp only [debounceRunAux, if_neg hdue]
    rw [debounceRunAux_burst delay rest' t' a' hrest,
      List.getLast_cons (List.cons_ne_nil _ _)]

/-- C8. Trailing-edge debounce: for a burst of `n ≥ 1` calls in which
each successive call arrives before the delay has elapsed since the
previous one, the wrapped function fires exactly once, at `delay` after
the final call, with the final call's arguments only. -/
theorem debounce_trailing_edge {α : Type} (delay : Nat) (c : Nat × α)
    (rest : List (Nat × α))
    (h : List.Chain' (fun p q => p.1 ≤ q.1 ∧ q.1 < p.1 + delay) (c :: rest)) :
    debounceRun delay (c :: rest) =
      [(((c :: rest).getLast (List.cons_ne_nil c rest)).1 + delay,
        ((c :: rest).getLast (List.cons_ne_nil c rest)).2)] := by
  obtain ⟨t, a⟩ := c
  exact debounceRunAux_burst delay rest t a h

/-- Witness for C8: three calls at times 0, 10, 30 with a 50ms delay
fire once, at time 80, with the third call's argument. -/
theorem debounce_trailing_edge_witness :
    debounceRun 50 [(0, 1), (10, 2), (30, 3)] = [(80, 3)] := by
  have hchain : List.Chain' (fun p q => p.1 ≤ q.1 ∧ q.1 < p.1 + 50)
      [((0 : Nat), (1 : Nat)), (10, 2), (30, 3)] :=
    List.chain'_cons.mpr ⟨⟨by norm_num, by norm_num⟩,
      List.chain'_cons.mpr ⟨⟨by norm_num, by norm_num⟩, List.chain'_singleton _⟩⟩
  have h := debounce_trailing_edge 50 (0, 1) [(10, 2), (30, 3)] hchain
  simpa using h

/-- C6. The persistence helpers are total and silent on faults: with no
storage medium everything is a no-op (`load` returning `null`); `load`
returns `null` when `getItem` throws, when the key is absent, and when
the stored string fails to parse; `save` and `clear` leave the medium
unchanged when `setItem` / `removeItem` throw. -/
theorem persist_helpers_silent (codec : JsonCodec) (s : StorageState)
    (key : String) (values : JSValue) :
    (s.available = false →
      loadPersistedValues codec s key = none ∧
      savePersistedValues codec s key values = s ∧
      clearPersistedValues s key = s) ∧
    (s.getThrows = true → loadPersistedValues codec s key = none) ∧
    (s.items.lookup key = none → loadPersistedValues codec s key = none) ∧
    (∀ raw, s.items.lookup key = some raw → raw ≠ "" →
      codec.parse raw = .error () → loadPersistedValues codec s key = none) ∧
    (s.setThrows = true → savePersistedValues codec s key values = s) ∧
    (s.removeThrows = true → clearPersistedValues s key = s) := by
  refine ⟨fun hav => ?_, fun hg => ?_, fun habs => ?_,
    fun raw hraw hne hparse => ?_, fun hset => ?_, fun hrem => ?_⟩
  · simp [loadPersistedValues, savePersistedValues, clearPersistedValues, isClient, hav]
  · by_cases hav : s.available
    · simp [loadPersistedValues, sessionGetItem, isClient, hav, hg]
    · simp [loadPersistedValues, isClient, hav]
  · by_cases hav : s.available
    · by_cases hg : s.getThrows
      · simp [loadPersistedValues, sessionGetItem, isClient, hav, hg]
      · simp [loadPersistedValues, sessionGetItem, isClient, hav, hg, habs]
    · simp [loadPersistedValues, isClient, hav]
  · by_cases hav : s.available
    · by_cases hg : s.getThrows
      · simp [loadPersistedValues, sessionGetItem, isClient, hav, hg]
      · simp [loadPersistedValues, sessionGetItem, isClient, hav, hg, hraw, hne, hparse]
    · simp [loadPersistedValues, isClient, hav]
  · by_cases hav : s.available
    · simp [savePersistedValues, sessionSetItem, isClient, hav, hset]
    · simp [savePersistedValues, isClient, hav]
  · by_cases hav : s.available
    · simp [clearPersistedValues, sessionRemoveItem, isClient, hav, hrem]
    · simp [clearPersistedValues, isClient, hav]

/-- Witness for C6: concrete faulty media and a failing parser.  A
medium that is absent makes all three helpers no-ops; a throwing
`getItem`, an absent key, and a corrupt stored string each make `load`
return `null`; throwing `setItem` / `removeItem` leave the medium
unchanged. -/
theorem persist_helpers_silent_witness :
    loadPersistedValues ⟨fun _ => .error (), fun _ => "v"⟩
      ⟨false, [], false, false, false⟩ "k" = none ∧
    savePersistedValues ⟨fun _ => .error (), fun _ => "v"⟩
      ⟨false, [], false, false, false⟩ "k" .null = ⟨false, [], false, false, false⟩ ∧
    clearPersistedValues ⟨false, [], false, false, false⟩ "k" =
      ⟨false, [], false, false, false⟩ ∧
    loadPersistedValues ⟨fun _ => .error (), fun _ => "v"⟩
      ⟨true, [("k", "corrupt")], true, false, false⟩ "k" = none ∧
    loadPersistedValues ⟨fun _ => .error (), fun _ => "v"⟩
      ⟨true, [], false, false, false⟩ "k" = none ∧
    loadPersistedValues ⟨fun _ => .error (), fun _ => "v"⟩
      ⟨true, [("k", "corrupt")], false, false, false⟩ "k" = none ∧
    savePersistedValues ⟨fun _ => .error (), fun _ => "v"⟩
      ⟨true, [], false, true, false⟩ "k" .null = ⟨true, [], false, true, false⟩ ∧
    clearPersistedValues ⟨true, [("k", "x")], false, false, true⟩ "k" =
      ⟨true, [("k", "x")], false, false, true⟩ := by
  refine ⟨?_, ?_, ?_, ?_, ?_, ?_, ?_, ?_⟩
  · exact ((persist_helpers_silent ⟨fun _ => .error (), fun _ => "v"⟩
      ⟨false, [], false, false, false⟩ "k" .null).1 rfl).1
  · exact ((persist_helpers_silent ⟨fun _ => .error (), fun _ => "v"⟩
      ⟨false, [], false, false, false⟩ "k" .null).1 rfl).2.1
  · exact ((persist_helpers_silent ⟨fun _ => .error (), fun _ => "v"⟩
      ⟨false, [], false, false, false⟩ "k" .null).1 rfl).2.2
  · exact (persist_helpers_silent ⟨fun _ => .error (), fun _ => "v"⟩
      ⟨true, [("k", "corrupt")], true, false, false⟩ "k" .null).2.1 rfl
  · exact (persist_helpers_silent ⟨fun _ => .error (), fun _ => "v"⟩
      ⟨true, [], false, false, false⟩ "k" .null).2.2.1 rfl
  · exact (persist_helpers_silent ⟨fun _ => .error (), fun _ => "v"⟩
      ⟨true, [("k", "corrupt")], false, false, false⟩ "k" .null).2.2.2.1 "corrupt" rfl
      (by decide) rfl
  · exact (persist_helpers_silent ⟨fun _ => .error (), fun _ => "v"⟩
      ⟨true, [], false, true, false⟩ "k" .null).2.2.2.2.1 rfl
  · exact (persist_helpers_silent ⟨fun _ => .error (), fun _ => "v"⟩
      ⟨true, [("k", "x")], false, false, true⟩ "k" .null).2.2.2.2.2 rfl

/-- C2. The default error mapper returns `result.errors` exactly when
the result is a non-null object whose `errors` property is a truthy
value of object type, and `null` for every other input: the source
transliteration coincides with the spec-side definition on all inputs. -/
theorem defaultErrorMapper_refines_spec (result : JSValue) :
    defaultErrorMapper result = defaultErrorMapperSpec result := by
  cases result <;>
    simp [defaultErrorMapper, defaultErrorMapperSpec, JSValue.truthy, JSValue.typeOf]

/-- C10. The default error mapper returns the `errors` property by
reference: `{errors: {}}` and `{errors: []}` are classified as non-null
field-error outcomes (the empty object / array itself is returned),
while `{errors: null}` and `{errors: "message"}` are classified as
success (`null`). -/
theorem defaultErrorMapper_reference_semantics :
    defaultErrorMapper (.obj [("errors", .obj [])]) = some (.obj []) ∧
    defaultErrorMapper (.obj [("errors", .arr [])]) = some (.arr []) ∧
    defaultErrorMapper (.obj [("errors", .null)]) = none ∧
    defaultErrorMapper (.obj [("errors", .str "message")]) = none := by
  refine ⟨rfl, rfl, rfl, rfl⟩

/-- C9. The classifier selects the `(previousResult, formEncodedPayload)`
convention exactly when the supplied function's declared parameter count
is at least 2, and the single-structured-payload convention otherwise;
`isFormDataAction action` returns `true` iff `action.length ≥ 2`. -/
theorem isFormDataAction_arity (action : ServerAction) :
    (isFormDataAction action = true ↔ action.length ≥ 2) ∧
    (selectConvention action = .formEncoded ↔ action.length ≥ 2) ∧
    (selectConvention action = .structured ↔ action.length < 2) := by
  unfold selectConvention isFormDataAction
  by_cases h : action.length ≥ 2
  · simp [h]
  · simp [h]
    omega

/-! ### Controller helper lemmas -/

/-- `applySpeculative` only touches the speculative value. -/
@[simp] theorem applySpeculative_storage {V R O : Type} (cfg : ControllerCfg V R O)
    (st : CtrlState R O) (v : V) : (applySpeculative cfg st v).storage = st.storage := by
  rcases h : cfg.optimistic with _ | reducer <;> simp [applySpeculative, h]

@[simp] theorem applySpeculative_confirmed {V R O : Type} (cfg : ControllerCfg V R O)
    (st : CtrlState R O) (v : V) : (applySpeculative cfg st v).confirmed = st.confirmed := by
  rcases h : cfg.optimistic with _ | reducer <;> simp [applySpeculative, h]

@[simp] theorem applySpeculative_submitCalls {V R O : Type} (cfg : ControllerCfg V R O)
    (st : CtrlState R O) (v : V) :
    (applySpeculative cfg st v).submitCalls = st.submitCalls := by
  rcases h : cfg.optimistic with _ | reducer <;> simp [applySpeculative, h]

/-- `autoRollback` only touches the speculative value. -/
@[simp] theorem autoRollback_storage {V R O : Type} (cfg : ControllerCfg V R O)
    (st : CtrlState R O) : (autoRollback cfg st).storage = st.storage := by
  rcases h : cfg.optimistic with _ | reducer <;> simp [autoRollback, rollbackOptimistic, h]

@[simp] theorem autoRollback_confirmed {V R O : Type} (cfg : ControllerCfg V R O)
    (st : CtrlState R O) : (autoRollback cfg st).confirmed = st.confirmed := by
  rcases h : cfg.optimistic with _ | reducer <;> simp [autoRollback, rollbackOptimistic, h]

@[simp] theorem autoRollback_submitErrors {V R O : Type} (cfg : ControllerCfg V R O)
    (st : CtrlState R O) : (autoRollback cfg st).submitErrors = st.submitErrors := by
  rcases h : cfg.optimistic with _ | reducer <;> simp [autoRollback, rollbackOptimistic, h]

@[simp] theorem autoRollback_isSubmitSuccessful {V R O : Type} (cfg : ControllerCfg V R O)
    (st : CtrlState R O) :
    (autoRollback cfg st).isSubmitSuccessful = st.isSubmitSuccessful := by
  rcases h : cfg.optimistic with _ | reducer <;> simp [autoRollback, rollbackOptimistic, h]

/-- `confirmOptimistic` only touches the confirmed value. -/
@[simp] theorem confirmOptimistic_storage {V R O : Type} (cfg : ControllerCfg V R O)
    (st : CtrlState R O) : (confirmOptimistic cfg st).storage = st.storage := by
  rcases h : cfg.optimistic with _ | reducer <;> simp [confirmOptimistic, h]

@[simp] theorem confirmOptimistic_optimisticData {V R O : Type} (cfg : ControllerCfg V R O)
    (st : CtrlState R O) :
    (confirmOptimistic cfg st).optimisticData = st.optimisticData := by
  rcases h : cfg.optimistic with _ | reducer <;> simp [confirmOptimistic, h]

@[simp] theorem confirmOptimistic_submitErrors {V R O : Type} (cfg : ControllerCfg V R O)
    (st : CtrlState R O) : (confirmOptimistic cfg st).submitErrors = st.submitErrors := by
  rcases h : cfg.optimistic with _ | reducer <;> simp [confirmOptimistic, h]

/-- `clearOnSuccess` only touches the storage medium. -/
@[simp] theorem clearOnSuccess_optimisticData {V R O : Type} (cfg : ControllerCfg V R O)
    (st : CtrlState R O) :
    (clearOnSuccess cfg st).optimisticData = st.optimisticData := by
  rcases h : cfg.persistKey with _ | key <;> simp [clearOnSuccess, h]

@[simp] theorem clearOnSuccess_confirmed {V R O : Type} (cfg : ControllerCfg V R O)
    (st : CtrlState R O) : (clearOnSuccess cfg st).confirmed = st.confirmed := by
  rcases h : cfg.persistKey with _ | key <;> simp [clearOnSuccess, h]

@[simp] theorem clearOnSuccess_submitErrors {V R O : Type} (cfg : ControllerCfg V R O)
    (st : CtrlState R O) : (clearOnSuccess cfg st).submitErrors = st.submitErrors := by
  rcases h : cfg.persistKey with _ | key <;> simp [clearOnSuccess, h]

/-- When validation passes (or no schema is configured), a submission
attempt proceeds to the `Submitting` phase. -/
theorem submitStep_of_validationPasses {V R O : Type} (cfg : ControllerCfg V R O)
    (st : CtrlState R O) (values : V) (hval : ValidationPasses cfg values) :
    submitStep cfg st values =
      runAction cfg { st with isSubmitting := true, isPending := true } values := by
  rcases hval with hnone | ⟨f, hf, hfv⟩
  · simp [submitStep, hnone]
  · simp [submitStep, hf, hfv]

/-- Filtering a key out of an association list makes its lookup fail. -/
theorem lookup_filter_self (key : String) :
    ∀ l : List (String × String), (l.filter (fun p => p.1 != key)).lookup key = none
  | [] => rfl
  | (k, v) :: tl => by
    by_cases h : k = key
    · simp [List.filter_cons, h, lookup_filter_self key tl]
    · have hkk : (key == k) = false := beq_eq_false_iff_ne.mpr fun hkey => h hkey.symm
      simp [List.filter_cons, List.lookup, h, hkk, lookup_filter_self key tl]

/-- After a successful (non-throwing) `removeItem`, the key loads as
absent no matter the codec or the remaining fault flags. -/
theorem loadPersistedValues_clear (codec : JsonCodec) (s : StorageState) (key : String)
    (hrm : s.removeThrows = false) :
    loadPersistedValues codec (clearPersistedValues s key) key = none := by
  by_cases hav : s.available
  · by_cases hg : s.getThrows
    · simp [clearPersistedValues, sessionRemoveItem, isClient, hav, hrm,
        loadPersistedValues, sessionGetItem, hg]
    · simp [clearPersistedValues, sessionRemoveItem, isClient, hav, hrm,
        loadPersistedValues, sessionGetItem, hg, lookup_filter_self]
  · simp [clearPersistedValues, isClient, hav, loadPersistedValues]

/-- Iterated explicit rollback never changes the confirmed value. -/
theorem rollback_iterate_confirmed {R O : Type} (st : CtrlState R O) (n : Nat) :
    (rollbackOptimistic^[n] st).confirmed = st.confirmed := by
  induction n with
  | zero => rfl
  | succ n ih =>
    rw [Function.iterate_succ_apply']
    exact ih

/-- One or more explicit rollbacks leave the speculative value at the
confirmed value. -/
theorem rollback_iterate_data {R O : Type} (st : CtrlState R O) (n : Nat) :
    (rollbackOptimistic^[n + 1] st).optimisticData = st.confirmed := by
  rw [Function.iterate_succ_apply']
  exact rollback_iterate_confirmed st n

/-! ### Controller claims -/

/-- C1. With a configured client schema that rejects the submitted
values, the submit handler never calls the user-supplied submit function
(the call count is unchanged), the validation error record is surfaced
as `submitErrors` (non-null), and `isSubmitSuccessful` is false. -/
theorem client_validation_blocks_submission {V R O : Type}
    (cfg : ControllerCfg V R O) (st : CtrlState R O) (values : V)
    (f : V → Option FieldErrorRecord) (errs : FieldErrorRecord)
    (hv : cfg.validate = some f) (he : f values = some errs) :
    (submitStep cfg st values).submitCalls = st.submitCalls ∧
    (submitStep cfg st values).submitErrors = some errs ∧
    (submitStep cfg st values).isSubmitSuccessful = false := by
  simp [submitStep, hv, he, finishIdle]

/-- Witness for C1: a concrete schema that rejects the value 7 blocks
the submission. -/
theorem client_validation_blocks_submission_witness :
    (submitStep
      (⟨some (fun _ => some [("email", ["Invalid email address"])]),
        fun _ => none, fun _ => .resolves 0, none, none⟩ : ControllerCfg Nat Nat Nat)
      ⟨false, false, false, none, none, 0, 0, ⟨true, [], false, false, false⟩, 0⟩
      7).submitCalls = 0 ∧
    (submitStep
      (⟨some (fun _ => some [("email", ["Invalid email address"])]),
        fun _ => none, fun _ => .resolves 0, none, none⟩ : ControllerCfg Nat Nat Nat)
      ⟨false, false, false, none, none, 0, 0, ⟨true, [], false, false, false⟩, 0⟩
      7).submitErrors = some [("email", ["Invalid email address"])] ∧
    (submitStep
      (⟨some (fun _ => some [("email", ["Invalid email address"])]),
        fun _ => none, fun _ => .resolves 0, none, none⟩ : ControllerCfg Nat Nat Nat)
      ⟨false, false, false, none, none, 0, 0, ⟨true, [], false, false, false⟩, 0⟩
      7).isSubmitSuccessful = false :=
  client_validation_blocks_submission _ _ 7 _ _ rfl rfl

/-- C3. With a configured persist key and a functioning `removeItem`:
a submission that resolves successfully leaves the persisted snapshot
absent (any codec loads `null`), while a submission that resolves with a
classified field-error result or throws leaves the storage medium
exactly as it was before the attempt. -/
theorem persist_cleared_on_success_only {V R O : Type}
    (codec : JsonCodec) (cfg : ControllerCfg V R O) (st : CtrlState R O)
    (values : V) (key : String)
    (hk : cfg.persistKey = some key)
    (hval : ValidationPasses cfg values)
    (hrm : st.storage.removeThrows = false) :
    (∀ r, cfg.action values = .resolves r → cfg.errorMapper r = none →
      loadPersistedValues codec (submitStep cfg st values).storage key = none) ∧
    (∀ r errs, cfg.action values = .resolves r → cfg.errorMapper r = some errs →
      (submitStep cfg st values).storage = st.storage) ∧
    (cfg.action values = .throws → (submitStep cfg st values).storage = st.storage) := by
  refine ⟨fun r ha hm => ?_, fun r errs ha hm => ?_, fun ha => ?_⟩ <;>
    rw [submitStep_of_validationPasses cfg st values hval]
  · have hst : (runAction cfg { st with isSubmitting := true, isPending := true }
        values).storage = clearPersistedValues st.storage key := by
      simp [runAction, ha, hm, finishIdle, clearOnSuccess, hk]
    rw [hst]
    exact loadPersistedValues_clear codec st.storage key hrm
  · simp [runAction, ha, hm, finishIdle]
  · simp [runAction, ha, finishIdle]

/-- Witness for C3: a concrete form with persist key `"wizard-1"`;
successful submission leaves the key absent, an error submission and a
throwing submission leave the medium untouched. -/
theorem persist_cleared_on_success_only_witness :
    loadPersistedValues ⟨fun _ => .error (), fun _ => "v"⟩
      (submitStep
        (⟨none, fun _ => none, fun _ => .resolves 0, none,
          some "wizard-1"⟩ : ControllerCfg Nat Nat Nat)
        ⟨false, false, false, none, none, 0, 0,
          ⟨true, [("wizard-1", "snapshot")], false, false, false⟩, 0⟩
        7).storage "wizard-1" = none ∧
    (submitStep
      (⟨none, fun _ => some [("email", ["Invalid"])], fun _ => .resolves 0, none,
        some "wizard-1"⟩ : ControllerCfg Nat Nat Nat)
      ⟨false, false, false, none, none, 0, 0,
        ⟨true, [("wizard-1", "snapshot")], false, false, false⟩, 0⟩
      7).storage = ⟨true, [("wizard-1", "snapshot")], false, false, false⟩ ∧
    (submitStep
      (⟨none, fun _ => none, fun _ => .throws, none,
        some "wizard-1"⟩ : ControllerCfg Nat Nat Nat)
      ⟨false, false, false, none, none, 0, 0,
        ⟨true, [("wizard-1", "snapshot")], false, false, false⟩, 0⟩
      7).storage = ⟨true, [("wizard-1", "snapshot")], false, false, false⟩ := by
  refine ⟨?_, ?_, ?_⟩
  · exact (persist_cleared_on_success_only ⟨fun _ => .error (), fun _ => "v"⟩ _ _ 7
      "wizard-1" rfl (Or.inl rfl) rfl).1 0 rfl rfl
  · exact (persist_cleared_on_success_only ⟨fun _ => .error (), fun _ => "v"⟩ _ _ 7
      "wizard-1" rfl (Or.inl rfl) rfl).2.1 0 [("email", ["Invalid"])] rfl rfl
  · exact (persist_cleared_on_success_only ⟨fun _ => .error (), fun _ => "v"⟩ _ _ 7
      "wizard-1" rfl (Or.inl rfl) rfl).2.2 rfl

/-- C4. With an optimistic configuration: rollback after a field-error
or thrown submission restores `optimistic.data` to the last confirmed
value (which is also left unchanged); any number of consecutive explicit
rollbacks yields the confirmed value; and once a successful submission
has confirmed a new value, any number of rollbacks yields that newly
confirmed value, never an earlier one. -/
theorem rollback_restores_confirmed {V R O : Type}
    (cfg : ControllerCfg V R O) (st : CtrlState R O) (values : V)
    (reducer : O → V → O)
    (hopt : cfg.optimistic = some reducer)
    (hval : ValidationPasses cfg values) :
    (∀ r errs, cfg.action values = .resolves r → cfg.errorMapper r = some errs →
      (submitStep cfg st values).optimisticData = st.confirmed ∧
      (submitStep cfg st values).confirmed = st.confirmed) ∧
    (cfg.action values = .throws →
      (submitStep cfg st values).optimisticData = st.confirmed ∧
      (submitStep cfg st values).confirmed = st.confirmed) ∧
    (∀ (st' : CtrlState R O) (n : Nat),
      (rollbackOptimistic^[n + 1] st').optimisticData = st'.confirmed) ∧
    (∀ r, cfg.action values = .resolves r → cfg.errorMapper r = none →
      ∀ n : Nat,
        (rollbackOptimistic^[n] (submitStep cfg st values)).optimisticData =
          reducer st.confirmed values) := by
  refine ⟨fun r errs ha hm => ?_, fun ha => ?_,
    fun st' n => rollback_iterate_data st' n, fun r ha hm n => ?_⟩
  · rw [submitStep_of_validationPasses cfg st values hval]
    constructor <;>
      simp [runAction, ha, hm, finishIdle, autoRollback, hopt, rollbackOptimistic]
  · rw [submitStep_of_validationPasses cfg st values hval]
    constructor <;>
      simp [runAction, ha, finishIdle, autoRollback, hopt, rollbackOptimistic]
  · have hdata : (submitStep cfg st values).optimisticData =
        reducer st.confirmed values := by
      rw [submitStep_of_validationPasses cfg st values hval]
      simp [runAction, ha, hm, finishIdle, applySpeculative, hopt]
    have hconf : (submitStep cfg st values).confirmed =
        reducer st.confirmed values := by
      rw [submitStep_of_validationPasses cfg st values hval]
      simp [runAction, ha, hm, finishIdle, confirmOptimistic, hopt,
        applySpeculative]
    cases n with
    | zero => simpa using hdata
    | succ n => rw [rollback_iterate_data]; exact hconf

/-- Witness for C4: a counter form whose reducer adds the submitted
value; a field-error submission rolls back to the confirmed value 10,
double rollback equals single rollback, and after a successful
submission every rollback returns the newly confirmed value 17. -/
theorem rollback_restores_confirmed_witness :
    (submitStep
      (⟨none, fun _ => some [("title", ["Required"])], fun _ => .resolves 0,
        some (fun c v => c + v), none⟩ : ControllerCfg Nat Nat Nat)
      ⟨false, false, false, none, none, 10, 10, ⟨true, [], false, false, false⟩, 0⟩
      7).optimisticData = 10 ∧
    (rollbackOptimistic^[2]
      (⟨false, false, false, none, none, 10, 42,
        ⟨true, [], false, false, false⟩, 0⟩ : CtrlState Nat Nat)).optimisticData = 10 ∧
    (rollbackOptimistic^[3]
      (submitStep
        (⟨none, fun _ => none, fun _ => .resolves 0,
          some (fun c v => c + v), none⟩ : ControllerCfg Nat Nat Nat)
        ⟨false, false, false, none, none, 10, 10, ⟨true, [], false, false, false⟩, 0⟩
        7)).optimisticData = 17 := by
  refine ⟨?_, ?_, ?_⟩
  · exact ((rollback_restores_confirmed _ _ 7 (fun c v => c + v) rfl
      (Or.inl rfl)).1 0 [("title", ["Required"])] rfl rfl).1
  · exact (rollback_restores_confirmed
      (⟨none, fun _ => some [("title", ["Required"])], fun _ => .resolves 0,
        some (fun c v => c + v), none⟩ : ControllerCfg Nat Nat Nat)
      ⟨false, false, false, none, none, 10, 10, ⟨true, [], false, false, false⟩, 0⟩
      7 (fun c v => c + v) rfl (Or.inl rfl)).2.2.1
      ⟨false, false, false, none, none, 10, 42, ⟨true, [], false, false, false⟩, 0⟩ 1
  · exact (rollback_restores_confirmed _ _ 7 (fun c v => c + v) rfl
      (Or.inl rfl)).2.2.2 0 rfl rfl 3

/-- C5. With an optimistic configuration, a successful submission leaves
`optimistic.data` equal to the reducer applied to the previous confirmed
value and the submitted values, and that value becomes the new confirmed
state. -/
theorem optimistic_success_applies_reducer {V R O : Type}
    (cfg : ControllerCfg V R O) (st : CtrlState R O) (values : V)
    (reducer : O → V → O) (r : R)
    (hopt : cfg.optimistic = some reducer)
    (hval : ValidationPasses cfg values)
    (ha : cfg.action values = .resolves r)
    (hm : cfg.errorMapper r = none) :
    (submitStep cfg st values).optimisticData = reducer st.confirmed values ∧
    (submitStep cfg st values).confirmed = reducer st.confirmed values := by
  rw [submitStep_of_validationPasses cfg st values hval]
  constructor <;>
    simp [runAction, ha, hm, finishIdle, confirmOptimistic, hopt, applySpeculative]

/-- Witness for C5: merging reducer `c + v`, confirmed value 10,
submitted value 7; after a successful submission both the optimistic
data and the confirmed state are 17. -/
theorem optimistic_success_applies_reducer_witness :
    (submitStep
      (⟨none, fun _ => none, fun _ => .resolves 0,
        some (fun c v => c + v), none⟩ : ControllerCfg Nat Nat Nat)
      ⟨false, false, false, none, none, 10, 10, ⟨true, [], false, false, false⟩, 0⟩
      7).optimisticData = 17 ∧
    (submitStep
      (⟨none, fun _ => none, fun _ => .resolves 0,
        some (fun c v => c + v), none⟩ : ControllerCfg Nat Nat Nat)
      ⟨false, false, false, none, none, 10, 10, ⟨true, [], false, false, false⟩, 0⟩
      7).confirmed = 17 :=
  optimistic_success_applies_reducer _ _ 7 (fun c v => c + v) 0 rfl (Or.inl rfl) rfl rfl

/-- C7. `submitErrors` is non-null after a submission attempt exactly
when the attempt was aborted by client validation with an error record,
or the submit function resolved with a result the error mapper
classifies as a field error; in particular it is null after a successful
and after a thrown submission. -/
theorem submitErrors_iff_classified_field_error {V R O : Type}
    (cfg : ControllerCfg V R O) (st : CtrlState R O) (values : V) :
    ((submitStep cfg st values).submitErrors ≠ none ↔
      (∃ f errs, cfg.validate = some f ∧ f values = some errs) ∨
        (ValidationPasses cfg values ∧
          ∃ r errs, cfg.action values = SubmitOutcome.resolves r ∧
            cfg.errorMapper r = some errs)) := by
  have main : ∀ hval : ValidationPasses cfg values,
      ((submitStep cfg st values).submitErrors ≠ none ↔
        ∃ r errs, cfg.action values = SubmitOutcome.resolves r ∧
          cfg.errorMapper r = some errs) := by
    intro hval
    rw [submitStep_of_validationPasses cfg st values hval]
    rcases ha : cfg.action values with r | _
    · rcases hm : cfg.errorMapper r with _ | errs
      · refine iff_of_false ?_ ?_
        · simp [runAction, ha, hm, finishIdle]
        · rintro ⟨r', errs', har, hmr⟩
          cases har
          rw [hm] at hmr
          exact Option.noConfusion hmr
      · refine iff_of_true ?_ ⟨r, errs, rfl, hm⟩
        simp [runAction, ha, hm, finishIdle]
    · refine iff_of_false ?_ ?_
      · simp [runAction, ha, finishIdle]
      · rintro ⟨r', errs', har, hmr⟩
        exact SubmitOutcome.noConfusion har
  rcases hv : cfg.validate with _ | f
  · have hval : ValidationPasses cfg values := Or.inl hv
    rw [main hval]
    constructor
    · intro h
      exact Or.inr ⟨hval, h⟩
    · rintro (⟨f, errs, hf, _⟩ | ⟨_, h⟩)
      · exact Option.noConfusion hf
      · exact h
  · rcases he : f values with _ | errs
    · have hval : ValidationPasses cfg values := Or.inr ⟨f, hv, he⟩
      rw [main hval]
      constructor
      · intro h
        exact Or.inr ⟨hval, h⟩
      · rintro (⟨f', errs', hf, hfe⟩ | ⟨_, h⟩)
        · cases hf
          rw [he] at hfe
          exact Option.noConfusion hfe
        · exact h
    · refine iff_of_true ?_ (Or.inl ⟨f, errs, rfl, he⟩)
      simp [submitStep, hv, he, finishIdle]

/-- Witness for C7: a concrete form whose submit function resolves with
a mapped field error; the iff instance holds at that input. -/
theorem submitErrors_iff_classified_field_error_witness :
    ((submitStep
      (⟨none, fun _ => some [("email", ["taken"])], fun _ => .resolves 0, none,
        none⟩ : ControllerCfg Nat Nat Nat)
      ⟨false, false, false, none, none, 0, 0, ⟨true, [], false, false, false⟩, 0⟩
      7).submitErrors ≠ none ↔
      (∃ f errs,
        (⟨none, fun _ => some [("email", ["taken"])], fun _ => .resolves 0, none,
          none⟩ : ControllerCfg Nat Nat Nat).validate = some f ∧ f 7 = some errs) ∨
        (ValidationPasses
          (⟨none, fun _ => some [("email", ["taken"])], fun _ => .resolves 0, none,
            none⟩ : ControllerCfg Nat Nat Nat) 7 ∧
          ∃ r errs,
            (⟨none, fun _ => some [("email", ["taken"])], fun _ => .resolves 0, none,
              none⟩ : ControllerCfg Nat Nat Nat).action 7 = SubmitOutcome.resolves r ∧
            (⟨none, fun _ => some [("email", ["taken"])], fun _ => .resolves 0, none,
              none⟩ : ControllerCfg Nat Nat Nat).errorMapper r = some errs)) :=
  submitErrors_iff_classified_field_error _
    ⟨false, false, false, none, none, 0, 0, ⟨true, [], false, false, false⟩, 0⟩ 7

/-- Witness for C2: the refinement instance at a primitive input. -/
theorem defaultErrorMapper_refines_spec_witness :
    defaultErrorMapper (.num 3) = defaultErrorMapperSpec (.num 3) :=
  defaultErrorMapper_refines_spec (.num 3)

/-- Witness for C9: the classifier at a two-parameter action. -/
theorem isFormDataAction_arity_witness :
    (isFormDataAction ⟨2⟩ = true ↔ (2 : Nat) ≥ 2) ∧
    (selectConvention ⟨2⟩ = .formEncoded ↔ (2 : Nat) ≥ 2) ∧
    (selectConvention ⟨2⟩ = .structured ↔ (2 : Nat) < 2) :=
  isFormDataAction_arity ⟨2⟩

end HookformAction
